import Mathlib

/-!
# UT_Framework: navigable vertical box and editor compiler dispatch

A shallow embedding of

* `Source/UT_Framework/Private/Widget/Navigation/NavigableVerticalBox.cpp`
* `Source/UT_FrameworkEditor/Private/UT_FrameworkEditor.cpp` (`CanCompile`, `Compile`)

Objects live on a heap and are referred to by pointers (natural numbers).  A member
function becomes a function of the `this` pointer (where the code uses it) and of the
`State` it reads and writes.  Calls into collaborators whose code is elsewhere
(`UNavigableWidgetLibrary::FocusNavigableWidget`, `UNavigableWidget::ConfirmState`,
`Super::OnSlotAdded`, `Super::OnSlotRemoved`, the two Blueprint compilers) are recorded,
in order, in a call log.  A `TArray` subscript outside `[0, Num)` stops the function with a
fault, as does the dereference of a null pointer.

Indices are `int32` in the code.  A `TArray` holds at most `2^31 - 1` elements, so
`Index + 1`, `Index - 1` and `Num() - 1` never leave the `int32` range for
`0 ≤ Index < Num()`; they are modelled by `Int` arithmetic.
-/

namespace UTFramework

/-! ## Data model -/

/-- Address of a `UNavigableWidget` object. -/
abbrev WidgetPtr := Nat

/-- Address of a `UNavigableVerticalBox` object. -/
abbrev ContainerPtr := Nat

/-- The fields of `UNavigableWidget` the container reads and writes. -/
structure UNavigableWidget where
  IsFocused : Bool
  OwnerContainer : Option ContainerPtr
deriving DecidableEq

/-- A `UWidget*` that is not null: either a `UNavigableWidget` (or a subclass of it), or a
widget of any other class. -/
inductive UWidget where
  | Navigable (p : WidgetPtr)
  | Other (p : Nat)
deriving DecidableEq

/-- A `UPanelSlot`; `Content` is a nullable `UWidget*`. -/
structure UPanelSlot where
  Content : Option UWidget
deriving DecidableEq

/-- The test `Cast<UNavigableWidget>(Content)`: the pointer itself when the object is a
navigable widget, null otherwise (also for a null argument). -/
def CastNavigableWidget : Option UWidget → Option WidgetPtr
  | some (UWidget.Navigable p) => some p
  | _ => none

/-- A call made to code outside `NavigableVerticalBox.cpp`. -/
inductive Call where
  | FocusNavigableWidget (Container : ContainerPtr) (Target : WidgetPtr)
  | ConfirmState (Target : WidgetPtr)
  | SuperOnSlotAdded (Slot : UPanelSlot)
  | SuperOnSlotRemoved (Slot : UPanelSlot)
deriving DecidableEq

/-- The ways a member function can stop abnormally. `LoopBudget` is specific to the
embedding: it is raised when a loop is cut off by its iteration budget, and is shown never
to occur. -/
inductive Fault where
  | IndexOutOfRange (Index : Int)
  | NullDereference
  | LoopBudget
deriving DecidableEq

/-- The fields of `UNavigableVerticalBox` used by the navigation code. -/
structure UNavigableVerticalBox where
  NavigableWidgets : List WidgetPtr
  HasConfirmed : Bool
  BoundOpposite : Bool
deriving DecidableEq

/-- The container together with the heap of widget objects its pointers refer to. -/
structure State where
  Box : UNavigableVerticalBox
  Widgets : WidgetPtr → UNavigableWidget

/-- What a member function leaves behind: the state after its own writes, the calls it made
to collaborators, and the fault that stopped it, if any. -/
structure Outcome where
  state : State
  calls : List Call
  fault : Option Fault

/-! ## `TArray` primitives -/

/-- The function `TArray::IsValidIndex`. -/
def IsValidIndex (a : List WidgetPtr) (Index : Int) : Bool :=
  decide (0 ≤ Index) && decide (Index < (a.length : Int))

/-- The function `TArray::operator[]`: `none` stands for a subscript outside `[0, Num)`. -/
def TArrayGet (a : List WidgetPtr) (Index : Int) : Option WidgetPtr :=
  if 0 ≤ Index then a[Index.toNat]? else none

/-- The function `TArray::Remove(Item)`: removes every element equal to `Item`, keeping the
others in order. -/
def TArrayRemove : List WidgetPtr → WidgetPtr → List WidgetPtr
  | [], _ => []
  | x :: rest, Item =>
    if x = Item then TArrayRemove rest Item else x :: TArrayRemove rest Item

/-! ## `NavigableVerticalBox.cpp` -/

/-- The function `UNavigableVerticalBox::OnSlotAdded`. -/
def OnSlotAdded (this : ContainerPtr) (s : State) (Slot : UPanelSlot) : Outcome :=
  match CastNavigableWidget Slot.Content with
  | some Widget =>
    { state :=
        { Box := { s.Box with NavigableWidgets := s.Box.NavigableWidgets ++ [Widget] }
          Widgets := Function.update s.Widgets Widget
            { s.Widgets Widget with OwnerContainer := some this } }
      calls := [Call.SuperOnSlotAdded Slot]
      fault := none }
  | none => { state := s, calls := [Call.SuperOnSlotAdded Slot], fault := none }

/-- The function `UNavigableVerticalBox::OnSlotRemoved`. -/
def OnSlotRemoved (s : State) (Slot : UPanelSlot) : Outcome :=
  match CastNavigableWidget Slot.Content with
  | some Widget =>
    { state :=
        { Box := { s.Box with
                    NavigableWidgets := TArrayRemove s.Box.NavigableWidgets Widget }
          Widgets := Function.update s.Widgets Widget
            { s.Widgets Widget with OwnerContainer := none } }
      calls := [Call.SuperOnSlotRemoved Slot]
      fault := none }
  | none => { state := s, calls := [Call.SuperOnSlotRemoved Slot], fault := none }

/-- The range-based loop of `GetFocusedNavigationWidget` over the remaining elements. -/
def FocusedScan (Widgets : WidgetPtr → UNavigableWidget) : List WidgetPtr → Option WidgetPtr
  | [] => none
  | NavigableWidget :: rest =>
    if (Widgets NavigableWidget).IsFocused then some NavigableWidget
    else FocusedScan Widgets rest

/-- The function `UNavigableVerticalBox::GetFocusedNavigationWidget`; `none` is `nullptr`. -/
def GetFocusedNavigationWidget (s : State) : Option WidgetPtr :=
  FocusedScan s.Widgets s.Box.NavigableWidgets

/-- The function `UNavigableVerticalBox::GetFirstNavigableWidget`. -/
def GetFirstNavigableWidget (s : State) : Except Fault WidgetPtr :=
  match TArrayGet s.Box.NavigableWidgets 0 with
  | some w => Except.ok w
  | none => Except.error (Fault.IndexOutOfRange 0)

/-- The function `UNavigableVerticalBox::ContainNavigableWidget`. -/
def ContainNavigableWidget (s : State) : Bool :=
  decide (0 < s.Box.NavigableWidgets.length)

/-- How a `for` loop with a `return` in its body ends. -/
inductive Scan where
  | Return (o : Outcome)
  | Done
  | OutOfBudget

/-- The `for` loop of `HandleNextKeyPressed`, from `Index` on, for at most `budget` tests of
the loop condition. -/
def NextScan (this : ContainerPtr) (s : State) : Nat → Int → Scan
  | 0, _ => Scan.OutOfBudget
  | budget + 1, Index =>
    if Index < (s.Box.NavigableWidgets.length : Int) then
      match TArrayGet s.Box.NavigableWidgets Index with
      | none => Scan.Return ⟨s, [], some (Fault.IndexOutOfRange Index)⟩
      | some w =>
        if (s.Widgets w).IsFocused && IsValidIndex s.Box.NavigableWidgets (Index + 1) then
          match TArrayGet s.Box.NavigableWidgets (Index + 1) with
          | none => Scan.Return ⟨s, [], some (Fault.IndexOutOfRange (Index + 1))⟩
          | some Target => Scan.Return ⟨s, [Call.FocusNavigableWidget this Target], none⟩
        else NextScan this s budget (Index + 1)
    else Scan.Done

/-- The statement after the loop of `HandleNextKeyPressed`:
`if (BoundOpposite) FocusNavigableWidget(this, NavigableWidgets[0]);`. -/
def NextBoundOpposite (this : ContainerPtr) (s : State) : Outcome :=
  if s.Box.BoundOpposite then
    match TArrayGet s.Box.NavigableWidgets 0 with
    | none => ⟨s, [], some (Fault.IndexOutOfRange 0)⟩
    | some Target => ⟨s, [Call.FocusNavigableWidget this Target], none⟩
  else ⟨s, [], none⟩

/-- The function `UNavigableVerticalBox::HandleNextKeyPressed`. The loop tests its
condition `Num() + 1` times at most. -/
def HandleNextKeyPressed (this : ContainerPtr) (s : State) : Outcome :=
  if s.Box.HasConfirmed then ⟨s, [], none⟩
  else
    match NextScan this s (s.Box.NavigableWidgets.length + 1) 0 with
    | Scan.Return o => o
    | Scan.OutOfBudget => ⟨s, [], some Fault.LoopBudget⟩
    | Scan.Done => NextBoundOpposite this s

/-- The `for` loop of `HandlePreviousKeyPressed`, from `Index` on, for at most `budget`
tests of the loop condition. -/
def PreviousScan (this : ContainerPtr) (s : State) : Nat → Int → Scan
  | 0, _ => Scan.OutOfBudget
  | budget + 1, Index =>
    if Index < (s.Box.NavigableWidgets.length : Int) then
      match TArrayGet s.Box.NavigableWidgets Index with
      | none => Scan.Return ⟨s, [], some (Fault.IndexOutOfRange Index)⟩
      | some w =>
        if (s.Widgets w).IsFocused && IsValidIndex s.Box.NavigableWidgets (Index - 1) then
          match TArrayGet s.Box.NavigableWidgets (Index - 1) with
          | none => Scan.Return ⟨s, [], some (Fault.IndexOutOfRange (Index - 1))⟩
          | some Target => Scan.Return ⟨s, [Call.FocusNavigableWidget this Target], none⟩
        else PreviousScan this s budget (Index + 1)
    else Scan.Done

/-- The statement after the loop of `HandlePreviousKeyPressed`:
`if (BoundOpposite) FocusNavigableWidget(this, NavigableWidgets[Num() - 1]);`. -/
def PreviousBoundOpposite (this : ContainerPtr) (s : State) : Outcome :=
  if s.Box.BoundOpposite then
    match TArrayGet s.Box.NavigableWidgets ((s.Box.NavigableWidgets.length : Int) - 1) with
    | none =>
      ⟨s, [], some (Fault.IndexOutOfRange ((s.Box.NavigableWidgets.length : Int) - 1))⟩
    | some Target => ⟨s, [Call.FocusNavigableWidget this Target], none⟩
  else ⟨s, [], none⟩

/-- The function `UNavigableVerticalBox::HandlePreviousKeyPressed`. The loop tests its
condition `Num() + 1` times at most. -/
def HandlePreviousKeyPressed (this : ContainerPtr) (s : State) : Outcome :=
  if s.Box.HasConfirmed then ⟨s, [], none⟩
  else
    match PreviousScan this s (s.Box.NavigableWidgets.length + 1) 0 with
    | Scan.Return o => o
    | Scan.OutOfBudget => ⟨s, [], some Fault.LoopBudget⟩
    | Scan.Done => PreviousBoundOpposite this s

/-- The function `UNavigableVerticalBox::HandleConfirmKeyPressed`. The focused widget is
looked up twice, the second time after the latch has been written. -/
def HandleConfirmKeyPressed (s : State) : Outcome :=
  match GetFocusedNavigationWidget s with
  | some _ =>
    let s1 : State := { s with Box := { s.Box with HasConfirmed := true } }
    match GetFocusedNavigationWidget s1 with
    | some w => ⟨s1, [Call.ConfirmState w], none⟩
    | none => ⟨s1, [], some Fault.NullDereference⟩
  | none => ⟨s, [], none⟩

/-! ## `UT_FrameworkEditor.cpp` -/

/-- A `UBlueprint` object, as far as the dispatcher looks at it: the outcome of the two
dynamic type tests `Cast<UStateMachineBlueprint>` and `Cast<UNpcBehaviorBlueprint>`.  The
class declarations are not part of the module, so no relation between the two is assumed. -/
structure UBlueprint where
  IsStateMachineBlueprint : Bool
  IsNpcBehaviorBlueprint : Bool
deriving DecidableEq

/-- The two compilers `Compile` can hand a Blueprint to. -/
inductive Compiler where
  | StateMachine
  | NpcBehavior
deriving DecidableEq

/-- What `Compile` leaves behind: the compilers run, in order, and whether a
`check(Compiler.NewClass)` failed. -/
structure CompileOutcome where
  compiled : List Compiler
  checkFailed : Bool
deriving DecidableEq

/-- The function `FUT_FrameworkEditorModule::CanCompile`; the argument is a nullable
pointer. -/
def CanCompile (Blueprint : Option UBlueprint) : Bool :=
  match Blueprint with
  | none => false
  | some b => b.IsStateMachineBlueprint || b.IsNpcBehaviorBlueprint

/-- The function `FUT_FrameworkEditorModule::Compile`. `NewClass c` tells whether compiler
`c` leaves a non-null `NewClass` behind. -/
def Compile (NewClass : Compiler → Bool) (Blueprint : Option UBlueprint) : CompileOutcome :=
  match Blueprint with
  | none => ⟨[], false⟩
  | some b =>
    if b.IsStateMachineBlueprint then
      ⟨[Compiler.StateMachine], !NewClass Compiler.StateMachine⟩
    else if b.IsNpcBehaviorBlueprint then
      ⟨[Compiler.NpcBehavior], !NewClass Compiler.NpcBehavior⟩
    else ⟨[], false⟩

/-! ## Vocabulary of the statements -/

/-- The focus flag of the widget at position `j` of the collection (`false` outside it). -/
def FocusedAt (s : State) (j : Nat) : Bool :=
  match s.Box.NavigableWidgets[j]? with
  | some w => (s.Widgets w).IsFocused
  | none => false

/-- Position `i` holds a focused widget and no earlier position does. -/
def IsFirstFocused (s : State) (i : Nat) : Prop :=
  FocusedAt s i = true ∧ ∀ j, j < i → FocusedAt s j = false

/-- The outcome of a member function that did nothing. -/
def Outcome.idle (s : State) : Outcome := ⟨s, [], none⟩

/-- The outcome of a handler whose only action is one call of the focus-transfer utility. -/
def Outcome.focus (this : ContainerPtr) (s : State) (Target : WidgetPtr) : Outcome :=
  ⟨s, [Call.FocusNavigableWidget this Target], none⟩

/-- A test heap: the widgets whose pointers are listed are focused, none has an owner. -/
def heapOf (focused : List WidgetPtr) (p : WidgetPtr) : UNavigableWidget :=
  ⟨decide (p ∈ focused), none⟩

/-- A test state: collection `ws`, the widgets of `focused` focused. -/
def mkState (ws focused : List WidgetPtr) (HasConfirmed BoundOpposite : Bool) : State :=
  ⟨⟨ws, HasConfirmed, BoundOpposite⟩, heapOf focused⟩

/-! ## The subscript and the index test on natural-number indices -/

theorem TArrayGet_natCast (a : List WidgetPtr) (k : Nat) :
    TArrayGet a (k : Int) = a[k]? := by
  simp [TArrayGet]

theorem TArrayGet_succ (a : List WidgetPtr) (k : Nat) :
    TArrayGet a ((k : Int) + 1) = a[k + 1]? := by
  have h := TArrayGet_natCast a (k + 1)
  push_cast at h
  exact h

theorem TArrayGet_pred (a : List WidgetPtr) (k : Nat) (hk : 1 ≤ k) :
    TArrayGet a ((k : Int) - 1) = a[k - 1]? := by
  have h := TArrayGet_natCast a (k - 1)
  rw [Nat.cast_sub hk] at h
  simpa using h

theorem IsValidIndex_succ (a : List WidgetPtr) (k : Nat) :
    IsValidIndex a ((k : Int) + 1) = decide (k + 1 < a.length) := by
  unfold IsValidIndex
  rcases Nat.lt_or_ge (k + 1) a.length with h | h
  · have h1 : (0 : Int) ≤ (k : Int) + 1 := by omega
    have h2 : (k : Int) + 1 < (a.length : Int) := by omega
    simp [h, h1, h2]
  · have h2 : ¬ ((k : Int) + 1 < (a.length : Int)) := by omega
    have h3 : ¬ (k + 1 < a.length) := by omega
    simp [h2, h3]

theorem IsValidIndex_pred (a : List WidgetPtr) (k : Nat) (hk : k < a.length) :
    IsValidIndex a ((k : Int) - 1) = decide (1 ≤ k) := by
  unfold IsValidIndex
  rcases Nat.lt_or_ge k 1 with h | h
  · have h1 : ¬ ((0 : Int) ≤ (k : Int) - 1) := by omega
    have h3 : ¬ (1 ≤ k) := by omega
    simp [h1, h3]
  · have h1 : (0 : Int) ≤ (k : Int) - 1 := by omega
    have h2 : (k : Int) - 1 < (a.length : Int) := by omega
    simp [h, h1, h2]

theorem FocusedAt_of_getElem (s : State) (k : Nat) (w : WidgetPtr)
    (h : s.Box.NavigableWidgets[k]? = some w) :
    FocusedAt s k = (s.Widgets w).IsFocused := by
  simp [FocusedAt, h]

theorem getElem_some_of_lt (a : List WidgetPtr) (k : Nat) (hk : k < a.length) :
    ∃ w, a[k]? = some w :=
  ⟨a[k], List.getElem?_eq_getElem hk⟩

/-! ## One iteration of the two loops -/

theorem NextScan_exit (this : ContainerPtr) (s : State) (b k : Nat)
    (hk : s.Box.NavigableWidgets.length ≤ k) :
    NextScan this s (b + 1) (k : Int) = Scan.Done := by
  have h : ¬ ((k : Int) < (s.Box.NavigableWidgets.length : Int)) := by omega
  simp [NextScan, h]

theorem NextScan_hit (this : ContainerPtr) (s : State) (b k : Nat) (t : WidgetPtr)
    (ht : s.Box.NavigableWidgets[k + 1]? = some t) (hf : FocusedAt s k = true) :
    NextScan this s (b + 1) (k : Int) = Scan.Return (Outcome.focus this s t) := by
  have hk1 : k + 1 < s.Box.NavigableWidgets.length := by
    by_contra hc
    rw [List.getElem?_eq_none (by omega)] at ht
    exact Option.noConfusion ht
  obtain ⟨w, hw⟩ := getElem_some_of_lt s.Box.NavigableWidgets k (by omega)
  have hlt : (k : Int) < (s.Box.NavigableWidgets.length : Int) := by omega
  rw [FocusedAt_of_getElem s k w hw] at hf
  simp [NextScan, hlt, TArrayGet_natCast, hw, hf, IsValidIndex_succ, hk1, TArrayGet_succ, ht,
    Outcome.focus]

theorem NextScan_miss (this : ContainerPtr) (s : State) (b k : Nat)
    (hk : k < s.Box.NavigableWidgets.length)
    (h : FocusedAt s k = false ∨ s.Box.NavigableWidgets.length ≤ k + 1) :
    NextScan this s (b + 1) (k : Int) = NextScan this s b ((k + 1 : Nat) : Int) := by
  obtain ⟨w, hw⟩ := getElem_some_of_lt s.Box.NavigableWidgets k hk
  have hlt : (k : Int) < (s.Box.NavigableWidgets.length : Int) := by omega
  rw [FocusedAt_of_getElem s k w hw] at h
  have hc : ((s.Widgets w).IsFocused && IsValidIndex s.Box.NavigableWidgets ((k : Int) + 1))
      = false := by
    rw [IsValidIndex_succ]
    rcases h with h | h
    · simp [h]
    · have : ¬ (k + 1 < s.Box.NavigableWidgets.length) := by omega
      simp [this]
  simp [NextScan, hlt, TArrayGet_natCast, hw, hc]

theorem PreviousScan_exit (this : ContainerPtr) (s : State) (b k : Nat)
    (hk : s.Box.NavigableWidgets.length ≤ k) :
    PreviousScan this s (b + 1) (k : Int) = Scan.Done := by
  have h : ¬ ((k : Int) < (s.Box.NavigableWidgets.length : Int)) := by omega
  simp [PreviousScan, h]

theorem PreviousScan_hit (this : ContainerPtr) (s : State) (b k : Nat) (t : WidgetPtr)
    (hk : k < s.Box.NavigableWidgets.length) (hk1 : 1 ≤ k)
    (ht : s.Box.NavigableWidgets[k - 1]? = some t) (hf : FocusedAt s k = true) :
    PreviousScan this s (b + 1) (k : Int) = Scan.Return (Outcome.focus this s t) := by
  obtain ⟨w, hw⟩ := getElem_some_of_lt s.Box.NavigableWidgets k hk
  have hlt : (k : Int) < (s.Box.NavigableWidgets.length : Int) := by omega
  rw [FocusedAt_of_getElem s k w hw] at hf
  simp [PreviousScan, hlt, TArrayGet_natCast, hw, hf, IsValidIndex_pred _ _ hk, hk1,
    TArrayGet_pred _ _ hk1, ht, Outcome.focus]

theorem PreviousScan_miss (this : ContainerPtr) (s : State) (b k : Nat)
    (hk : k < s.Box.NavigableWidgets.length)
    (h : FocusedAt s k = false ∨ k = 0) :
    PreviousScan this s (b + 1) (k : Int) = PreviousScan this s b ((k + 1 : Nat) : Int) := by
  obtain ⟨w, hw⟩ := getElem_some_of_lt s.Box.NavigableWidgets k hk
  have hlt : (k : Int) < (s.Box.NavigableWidgets.length : Int) := by omega
  rw [FocusedAt_of_getElem s k w hw] at h
  have hc : ((s.Widgets w).IsFocused && IsValidIndex s.Box.NavigableWidgets ((k : Int) - 1))
      = false := by
    rw [IsValidIndex_pred _ _ hk]
    rcases h with h | h
    · simp [h]
    · simp [h]
  simp [PreviousScan, hlt, TArrayGet_natCast, hw, hc]

/-! ## The loops as a whole -/

theorem NextScan_found (this : ContainerPtr) (s : State) (i : Nat) (t : WidgetPtr)
    (ht : s.Box.NavigableWidgets[i + 1]? = some t) (hf : FocusedAt s i = true) :
    ∀ (b k : Nat), k ≤ i → (∀ j, k ≤ j → j < i → FocusedAt s j = false) → i - k < b →
      NextScan this s b (k : Int) = Scan.Return (Outcome.focus this s t) := by
  have hi1 : i + 1 < s.Box.NavigableWidgets.length := by
    by_contra hc
    rw [List.getElem?_eq_none (by omega)] at ht
    exact Option.noConfusion ht
  intro b
  induction b with
  | zero => intro k _ _ hb; omega
  | succ b ih =>
    intro k hki hbefore hb
    rcases Nat.eq_or_lt_of_le hki with hk | hk
    · subst hk
      exact NextScan_hit this s b k t ht hf
    · rw [NextScan_miss this s b k (by omega) (Or.inl (hbefore k (le_refl k) hk))]
      exact ih (k + 1) hk (fun j hj hji => hbefore j (by omega) hji) (by omega)

theorem NextScan_none (this : ContainerPtr) (s : State) :
    ∀ (b k : Nat),
      (∀ j, k ≤ j → j + 1 < s.Box.NavigableWidgets.length → FocusedAt s j = false) →
      s.Box.NavigableWidgets.length - k < b →
      NextScan this s b (k : Int) = Scan.Done := by
  intro b
  induction b with
  | zero => intro k _ hb; omega
  | succ b ih =>
    intro k hnone hb
    rcases Nat.lt_or_ge k s.Box.NavigableWidgets.length with hk | hk
    · have hmiss : FocusedAt s k = false ∨ s.Box.NavigableWidgets.length ≤ k + 1 := by
        rcases Nat.lt_or_ge (k + 1) s.Box.NavigableWidgets.length with h1 | h1
        · exact Or.inl (hnone k (le_refl k) h1)
        · exact Or.inr h1
      rw [NextScan_miss this s b k hk hmiss]
      exact ih (k + 1) (fun j hj hjl => hnone j (by omega) hjl) (by omega)
    · exact NextScan_exit this s b k hk

theorem PreviousScan_found (this : ContainerPtr) (s : State) (i : Nat) (t : WidgetPtr)
    (hi : i < s.Box.NavigableWidgets.length) (hi1 : 1 ≤ i)
    (ht : s.Box.NavigableWidgets[i - 1]? = some t) (hf : FocusedAt s i = true) :
    ∀ (b k : Nat), k ≤ i → (∀ j, k ≤ j → j < i → 1 ≤ j → FocusedAt s j = false) →
      i - k < b →
      PreviousScan this s b (k : Int) = Scan.Return (Outcome.focus this s t) := by
  intro b
  induction b with
  | zero => intro k _ _ hb; omega
  | succ b ih =>
    intro k hki hbefore hb
    rcases Nat.eq_or_lt_of_le hki with hk | hk
    · subst hk
      exact PreviousScan_hit this s b k t hi hi1 ht hf
    · have hmiss : FocusedAt s k = false ∨ k = 0 := by
        rcases Nat.eq_zero_or_pos k with h0 | h0
        · exact Or.inr h0
        · exact Or.inl (hbefore k (le_refl k) hk h0)
      rw [PreviousScan_miss this s b k (by omega) hmiss]
      exact ih (k + 1) hk (fun j hj hji => hbefore j (by omega) hji) (by omega)

theorem PreviousScan_none (this : ContainerPtr) (s : State) :
    ∀ (b k : Nat),
      (∀ j, k ≤ j → 1 ≤ j → FocusedAt s j = false) →
      s.Box.NavigableWidgets.length - k < b →
      PreviousScan this s b (k : Int) = Scan.Done := by
  intro b
  induction b with
  | zero => intro k _ hb; omega
  | succ b ih =>
    intro k hnone hb
    rcases Nat.lt_or_ge k s.Box.NavigableWidgets.length with hk | hk
    · have hmiss : FocusedAt s k = false ∨ k = 0 := by
        rcases Nat.eq_zero_or_pos k with h0 | h0
        · exact Or.inr h0
        · exact Or.inl (hnone k (le_refl k) h0)
      rw [PreviousScan_miss this s b k hk hmiss]
      exact ih (k + 1) (fun j hj hjl => hnone j (by omega) hjl) (by omega)
    · exact PreviousScan_exit this s b k hk

/-! ## The two handlers, branch by branch -/

/-- The first focused position with a successor decides `HandleNextKeyPressed`. -/
theorem HandleNext_found (this : ContainerPtr) (s : State) (i : Nat) (t : WidgetPtr)
    (hlatch : s.Box.HasConfirmed = false)
    (ht : s.Box.NavigableWidgets[i + 1]? = some t) (hf : FocusedAt s i = true)
    (hbefore : ∀ j, j < i → FocusedAt s j = false) :
    HandleNextKeyPressed this s = Outcome.focus this s t := by
  have h := NextScan_found this s i t ht hf (s.Box.NavigableWidgets.length + 1) 0
    (Nat.zero_le i) (fun j _ hji => hbefore j hji) (by
      have hi1 : i + 1 < s.Box.NavigableWidgets.length := by
        by_contra hc
        rw [List.getElem?_eq_none (by omega)] at ht
        exact Option.noConfusion ht
      omega)
  simp only [Nat.cast_zero] at h
  simp [HandleNextKeyPressed, hlatch, h]

/-- When no focused position has a successor, the loop of `HandleNextKeyPressed` is left
without a call and the test of `BoundOpposite` decides. -/
theorem HandleNext_exhausted (this : ContainerPtr) (s : State)
    (hlatch : s.Box.HasConfirmed = false)
    (hnone : ∀ j, j + 1 < s.Box.NavigableWidgets.length → FocusedAt s j = false) :
    HandleNextKeyPressed this s = NextBoundOpposite this s := by
  have h := NextScan_none this s (s.Box.NavigableWidgets.length + 1) 0
    (fun j _ hj => hnone j hj) (by omega)
  simp only [Nat.cast_zero] at h
  simp [HandleNextKeyPressed, hlatch, h]

/-- The first focused position with a predecessor decides `HandlePreviousKeyPressed`. -/
theorem HandlePrevious_found (this : ContainerPtr) (s : State) (i : Nat) (t : WidgetPtr)
    (hlatch : s.Box.HasConfirmed = false)
    (hi : i < s.Box.NavigableWidgets.length) (hi1 : 1 ≤ i)
    (ht : s.Box.NavigableWidgets[i - 1]? = some t) (hf : FocusedAt s i = true)
    (hbefore : ∀ j, j < i → 1 ≤ j → FocusedAt s j = false) :
    HandlePreviousKeyPressed this s = Outcome.focus this s t := by
  have h := PreviousScan_found this s i t hi hi1 ht hf (s.Box.NavigableWidgets.length + 1) 0
    (Nat.zero_le i) (fun j _ hji => hbefore j hji) (by omega)
  simp only [Nat.cast_zero] at h
  simp [HandlePreviousKeyPressed, hlatch, h]

/-- When no position from 1 on is focused, the loop of `HandlePreviousKeyPressed` is left
without a call and the test of `BoundOpposite` decides. -/
theorem HandlePrevious_exhausted (this : ContainerPtr) (s : State)
    (hlatch : s.Box.HasConfirmed = false)
    (hnone : ∀ j, 1 ≤ j → FocusedAt s j = false) :
    HandlePreviousKeyPressed this s = PreviousBoundOpposite this s := by
  have h := PreviousScan_none this s (s.Box.NavigableWidgets.length + 1) 0
    (fun j _ hj => hnone j hj) (by omega)
  simp only [Nat.cast_zero] at h
  simp [HandlePreviousKeyPressed, hlatch, h]

/-- The subscript `Num() - 1` of a non-empty array is its last position. -/
theorem TArrayGet_last (a : List WidgetPtr) (h : a ≠ []) :
    TArrayGet a ((a.length : Int) - 1) = a[a.length - 1]? := by
  have hl : 1 ≤ a.length := Nat.one_le_iff_ne_zero.mpr (fun h0 => h (List.length_eq_zero.mp h0))
  exact TArrayGet_pred a a.length hl

/-! ## The statement after the loop, case by case -/

theorem NextBoundOpposite_off (this : ContainerPtr) (s : State)
    (h : s.Box.BoundOpposite = false) : NextBoundOpposite this s = Outcome.idle s := by
  simp [NextBoundOpposite, h, Outcome.idle]

theorem NextBoundOpposite_on (this : ContainerPtr) (s : State) (t : WidgetPtr)
    (h : s.Box.BoundOpposite = true) (ht : s.Box.NavigableWidgets[0]? = some t) :
    NextBoundOpposite this s = Outcome.focus this s t := by
  have hg : TArrayGet s.Box.NavigableWidgets 0 = some t := by
    have := TArrayGet_natCast s.Box.NavigableWidgets 0
    simp only [Nat.cast_zero] at this
    rw [this, ht]
  simp [NextBoundOpposite, h, hg, Outcome.focus]

theorem NextBoundOpposite_empty (this : ContainerPtr) (s : State)
    (h : s.Box.BoundOpposite = true) (he : s.Box.NavigableWidgets = []) :
    NextBoundOpposite this s = ⟨s, [], some (Fault.IndexOutOfRange 0)⟩ := by
  simp [NextBoundOpposite, h, he, TArrayGet]

theorem PreviousBoundOpposite_off (this : ContainerPtr) (s : State)
    (h : s.Box.BoundOpposite = false) : PreviousBoundOpposite this s = Outcome.idle s := by
  simp [PreviousBoundOpposite, h, Outcome.idle]

theorem PreviousBoundOpposite_on (this : ContainerPtr) (s : State) (t : WidgetPtr)
    (h : s.Box.BoundOpposite = true)
    (ht : s.Box.NavigableWidgets[s.Box.NavigableWidgets.length - 1]? = some t) :
    PreviousBoundOpposite this s = Outcome.focus this s t := by
  have hne : s.Box.NavigableWidgets ≠ [] := by
    intro he
    rw [he] at ht
    simp at ht
  have hg := TArrayGet_last s.Box.NavigableWidgets hne
  rw [ht] at hg
  simp [PreviousBoundOpposite, h, hg, Outcome.focus]

theorem PreviousBoundOpposite_empty (this : ContainerPtr) (s : State)
    (h : s.Box.BoundOpposite = true) (he : s.Box.NavigableWidgets = []) :
    PreviousBoundOpposite this s = ⟨s, [], some (Fault.IndexOutOfRange (-1))⟩ := by
  simp [PreviousBoundOpposite, h, he, TArrayGet]

/-! ## The linear scan for the focused widget -/

theorem FocusedScan_none_iff (W : WidgetPtr → UNavigableWidget) (ws : List WidgetPtr) :
    FocusedScan W ws = none ↔ ∀ w ∈ ws, (W w).IsFocused = false := by
  induction ws with
  | nil => simp [FocusedScan]
  | cons x rest ih =>
    cases hx : (W x).IsFocused with
    | true => simp [FocusedScan, hx]
    | false => simp [FocusedScan, hx, ih]

theorem FocusedScan_some_iff (W : WidgetPtr → UNavigableWidget) (ws : List WidgetPtr)
    (w : WidgetPtr) :
    FocusedScan W ws = some w ↔
      ∃ i : Nat, ws[i]? = some w ∧ (W w).IsFocused = true ∧
        ∀ j : Nat, j < i → ∀ x, ws[j]? = some x → (W x).IsFocused = false := by
  induction ws with
  | nil => simp [FocusedScan]
  | cons x rest ih =>
    cases hx : (W x).IsFocused with
    | true =>
      simp only [FocusedScan, hx, if_true, Option.some.injEq]
      constructor
      · intro h
        subst h
        exact ⟨0, by simp, hx, fun j hj => absurd hj (Nat.not_lt_zero j)⟩
      · rintro ⟨i, hi, _, hbefore⟩
        cases i with
        | zero => simpa using hi
        | succ i =>
          have := hbefore 0 (Nat.succ_pos i) x (by simp)
          rw [hx] at this
          exact Bool.noConfusion this
    | false =>
      simp only [FocusedScan, hx, Bool.false_eq_true, if_false, ih]
      constructor
      · rintro ⟨i, hi, hw, hbefore⟩
        refine ⟨i + 1, by simpa using hi, hw, ?_⟩
        intro j hj y hy
        cases j with
        | zero =>
          have : x = y := by simpa using hy
          rw [← this]; exact hx
        | succ j => exact hbefore j (by omega) y (by simpa using hy)
      · rintro ⟨i, hi, hw, hbefore⟩
        cases i with
        | zero =>
          have : x = w := by simpa using hi
          rw [this] at hx
          rw [hx] at hw
          exact Bool.noConfusion hw
        | succ i =>
          refine ⟨i, by simpa using hi, hw, ?_⟩
          intro j hj y hy
          exact hbefore (j + 1) (by omega) y (by simpa using hy)

theorem FocusedAt_false_iff (s : State) (j : Nat) :
    FocusedAt s j = false ↔
      ∀ x, s.Box.NavigableWidgets[j]? = some x → (s.Widgets x).IsFocused = false := by
  unfold FocusedAt
  cases h : s.Box.NavigableWidgets[j]? with
  | none => simp
  | some w => simp

theorem GetFocused_some_iff (s : State) (w : WidgetPtr) :
    GetFocusedNavigationWidget s = some w ↔
      ∃ i, s.Box.NavigableWidgets[i]? = some w ∧ IsFirstFocused s i := by
  unfold GetFocusedNavigationWidget IsFirstFocused
  rw [FocusedScan_some_iff]
  constructor
  · rintro ⟨i, hi, hw, hbefore⟩
    refine ⟨i, hi, ?_, ?_⟩
    · rw [FocusedAt_of_getElem s i w hi]; exact hw
    · intro j hj
      exact (FocusedAt_false_iff s j).mpr (hbefore j hj)
  · rintro ⟨i, hi, hw, hbefore⟩
    refine ⟨i, hi, ?_, ?_⟩
    · rw [FocusedAt_of_getElem s i w hi] at hw; exact hw
    · intro j hj
      exact (FocusedAt_false_iff s j).mp (hbefore j hj)

theorem GetFocused_none_iff (s : State) :
    GetFocusedNavigationWidget s = none ↔
      ∀ w ∈ s.Box.NavigableWidgets, (s.Widgets w).IsFocused = false :=
  FocusedScan_none_iff s.Widgets s.Box.NavigableWidgets

/-! ## `TArray::Remove` -/

theorem TArrayRemove_eq_filter (a : List WidgetPtr) (Item : WidgetPtr) :
    TArrayRemove a Item = a.filter (fun x => decide (x ≠ Item)) := by
  induction a with
  | nil => rfl
  | cons x rest ih =>
    by_cases hx : x = Item
    · simp [TArrayRemove, hx, ih]
    · simp [TArrayRemove, hx, ih]

theorem not_mem_TArrayRemove (a : List WidgetPtr) (Item : WidgetPtr) :
    Item ∉ TArrayRemove a Item := by
  rw [TArrayRemove_eq_filter]
  simp

/-! ## Every run of the handlers -/

theorem FocusedAt_lt (s : State) (j : Nat) (h : FocusedAt s j = true) :
    j < s.Box.NavigableWidgets.length := by
  by_contra hc
  have hn : s.Box.NavigableWidgets[j]? = none := List.getElem?_eq_none (by omega)
  simp [FocusedAt, hn] at h

theorem FocusedAt_eq_false_of_ne_true (s : State) (j : Nat) (h : ¬ FocusedAt s j = true) :
    FocusedAt s j = false := by
  cases hf : FocusedAt s j with
  | true => exact absurd hf h
  | false => rfl

/-- With the latch unset, `HandleNextKeyPressed` either calls the utility once from inside
the loop (the collection is then not empty) or reaches the statement after the loop. -/
theorem HandleNext_cases (this : ContainerPtr) (s : State)
    (hlatch : s.Box.HasConfirmed = false) :
    (∃ t, s.Box.NavigableWidgets ≠ [] ∧ HandleNextKeyPressed this s = Outcome.focus this s t) ∨
    HandleNextKeyPressed this s = NextBoundOpposite this s := by
  classical
  by_cases h : ∃ j, j + 1 < s.Box.NavigableWidgets.length ∧ FocusedAt s j = true
  · left
    obtain ⟨i, hspec, hmin⟩ : ∃ i, (i + 1 < s.Box.NavigableWidgets.length ∧
        FocusedAt s i = true) ∧ ∀ j, j < i →
          ¬ (j + 1 < s.Box.NavigableWidgets.length ∧ FocusedAt s j = true) :=
      ⟨Nat.find h, Nat.find_spec h, fun j hj => Nat.find_min h hj⟩
    obtain ⟨t, ht⟩ := getElem_some_of_lt s.Box.NavigableWidgets (i + 1) hspec.1
    refine ⟨t, ?_, HandleNext_found this s i t hlatch ht hspec.2 ?_⟩
    · intro he
      have hl := hspec.1
      rw [he] at hl
      simp at hl
    · intro j hj
      apply FocusedAt_eq_false_of_ne_true
      intro hf
      exact hmin j hj ⟨by omega, hf⟩
  · right
    apply HandleNext_exhausted this s hlatch
    intro j hj
    apply FocusedAt_eq_false_of_ne_true
    intro hf
    exact h ⟨j, hj, hf⟩

/-- With the latch unset, `HandlePreviousKeyPressed` either calls the utility once from
inside the loop (the collection is then not empty) or reaches the statement after the
loop. -/
theorem HandlePrevious_cases (this : ContainerPtr) (s : State)
    (hlatch : s.Box.HasConfirmed = false) :
    (∃ t, s.Box.NavigableWidgets ≠ [] ∧
      HandlePreviousKeyPressed this s = Outcome.focus this s t) ∨
    HandlePreviousKeyPressed this s = PreviousBoundOpposite this s := by
  classical
  by_cases h : ∃ j, 1 ≤ j ∧ FocusedAt s j = true
  · left
    obtain ⟨i, hspec, hmin⟩ : ∃ i, (1 ≤ i ∧ FocusedAt s i = true) ∧
        ∀ j, j < i → ¬ (1 ≤ j ∧ FocusedAt s j = true) :=
      ⟨Nat.find h, Nat.find_spec h, fun j hj => Nat.find_min h hj⟩
    have hlt := FocusedAt_lt s i hspec.2
    obtain ⟨t, ht⟩ := getElem_some_of_lt s.Box.NavigableWidgets (i - 1) (by omega)
    refine ⟨t, ?_, HandlePrevious_found this s i t hlatch hlt hspec.1 ht hspec.2 ?_⟩
    · intro he
      rw [he] at hlt
      simp at hlt
    · intro j hj hj1
      apply FocusedAt_eq_false_of_ne_true
      intro hf
      exact hmin j hj ⟨hj1, hf⟩
  · right
    apply HandlePrevious_exhausted this s hlatch
    intro j hj
    apply FocusedAt_eq_false_of_ne_true
    intro hf
    exact h ⟨j, hj, hf⟩

theorem NextBoundOpposite_fault (this : ContainerPtr) (s : State) :
    (NextBoundOpposite this s).fault =
      if s.Box.NavigableWidgets = [] ∧ s.Box.BoundOpposite = true
      then some (Fault.IndexOutOfRange 0) else none := by
  cases hb : s.Box.BoundOpposite with
  | false => simp [NextBoundOpposite, hb]
  | true =>
    cases hw : s.Box.NavigableWidgets with
    | nil => simp [NextBoundOpposite, hb, hw, TArrayGet]
    | cons x rest => simp [NextBoundOpposite, hb, hw, TArrayGet]

theorem PreviousBoundOpposite_fault (this : ContainerPtr) (s : State) :
    (PreviousBoundOpposite this s).fault =
      if s.Box.NavigableWidgets = [] ∧ s.Box.BoundOpposite = true
      then some (Fault.IndexOutOfRange (-1)) else none := by
  cases hb : s.Box.BoundOpposite with
  | false => simp [PreviousBoundOpposite, hb]
  | true =>
    by_cases hw : s.Box.NavigableWidgets = []
    · simp [PreviousBoundOpposite, hb, hw, TArrayGet]
    · have hl : s.Box.NavigableWidgets.length - 1 < s.Box.NavigableWidgets.length := by
        have : s.Box.NavigableWidgets.length ≠ 0 := fun h0 => hw (List.length_eq_zero.mp h0)
        omega
      obtain ⟨t, ht⟩ := getElem_some_of_lt s.Box.NavigableWidgets _ hl
      rw [PreviousBoundOpposite_on this s t hb ht]
      simp [Outcome.focus, hw]

/-- The fault of `HandleNextKeyPressed`, for every state. -/
theorem HandleNext_fault (this : ContainerPtr) (s : State) :
    (HandleNextKeyPressed this s).fault =
      if s.Box.NavigableWidgets = [] ∧ s.Box.HasConfirmed = false ∧ s.Box.BoundOpposite = true
      then some (Fault.IndexOutOfRange 0) else none := by
  cases hl : s.Box.HasConfirmed with
  | true => simp [HandleNextKeyPressed, hl]
  | false =>
    rcases HandleNext_cases this s hl with ⟨t, hne, h⟩ | h
    · rw [h]
      simp [Outcome.focus, hne]
    · rw [h, NextBoundOpposite_fault]
      simp

/-- The fault of `HandlePreviousKeyPressed`, for every state. -/
theorem HandlePrevious_fault (this : ContainerPtr) (s : State) :
    (HandlePreviousKeyPressed this s).fault =
      if s.Box.NavigableWidgets = [] ∧ s.Box.HasConfirmed = false ∧ s.Box.BoundOpposite = true
      then some (Fault.IndexOutOfRange (-1)) else none := by
  cases hl : s.Box.HasConfirmed with
  | true => simp [HandlePreviousKeyPressed, hl]
  | false =>
    rcases HandlePrevious_cases this s hl with ⟨t, hne, h⟩ | h
    · rw [h]
      simp [Outcome.focus, hne]
    · rw [h, PreviousBoundOpposite_fault]
      simp

/-- The handlers on an empty collection with the latch unset. -/
theorem handlers_empty (this : ContainerPtr) (s : State)
    (he : s.Box.NavigableWidgets = []) (hlatch : s.Box.HasConfirmed = false) :
    HandleNextKeyPressed this s = NextBoundOpposite this s ∧
    HandlePreviousKeyPressed this s = PreviousBoundOpposite this s := by
  constructor
  · apply HandleNext_exhausted this s hlatch
    intro j hj
    rw [he] at hj
    simp at hj
  · apply HandlePrevious_exhausted this s hlatch
    intro j _
    apply FocusedAt_eq_false_of_ne_true
    intro hf
    have := FocusedAt_lt s j hf
    rw [he] at this
    simp at this

/-- The loop of `HandlePreviousKeyPressed` runs to its end exactly when no position from 1
on is focused. -/
theorem PreviousScan_done_iff (this : ContainerPtr) (s : State) :
    PreviousScan this s (s.Box.NavigableWidgets.length + 1) 0 = Scan.Done ↔
      ∀ m, 1 ≤ m → FocusedAt s m = false := by
  classical
  constructor
  · intro hdone m hm
    apply FocusedAt_eq_false_of_ne_true
    intro hf
    have h : ∃ j, 1 ≤ j ∧ FocusedAt s j = true := ⟨m, hm, hf⟩
    obtain ⟨i, hspec, hmin⟩ : ∃ i, (1 ≤ i ∧ FocusedAt s i = true) ∧
        ∀ j, j < i → ¬ (1 ≤ j ∧ FocusedAt s j = true) :=
      ⟨Nat.find h, Nat.find_spec h, fun j hj => Nat.find_min h hj⟩
    have hlt := FocusedAt_lt s i hspec.2
    obtain ⟨t, ht⟩ := getElem_some_of_lt s.Box.NavigableWidgets (i - 1) (by omega)
    have hret := PreviousScan_found this s i t hlt hspec.1 ht hspec.2
      (s.Box.NavigableWidgets.length + 1) 0 (Nat.zero_le i)
      (fun j _ hji hj1 => FocusedAt_eq_false_of_ne_true s j (fun hfj => hmin j hji ⟨hj1, hfj⟩))
      (by omega)
    simp only [Nat.cast_zero] at hret
    rw [hret] at hdone
    exact Scan.noConfusion hdone
  · intro hnone
    have h := PreviousScan_none this s (s.Box.NavigableWidgets.length + 1) 0
      (fun j _ hj => hnone j hj) (by omega)
    simpa using h

/-- A focused position has a first focused position at or before it. -/
theorem exists_first_focused (s : State) (j : Nat) (hf : FocusedAt s j = true) :
    ∃ i, i ≤ j ∧ IsFirstFocused s i := by
  classical
  have h : ∃ k, FocusedAt s k = true := ⟨j, hf⟩
  refine ⟨Nat.find h, Nat.le_of_not_lt (fun hlt => Nat.find_min h hlt hf), Nat.find_spec h, ?_⟩
  intro m hm
  exact FocusedAt_eq_false_of_ne_true s m (Nat.find_min h hm)

/-- With the latch set both handlers return at once. -/
theorem latched_idle (this : ContainerPtr) (s : State) (hlatch : s.Box.HasConfirmed = true) :
    HandleNextKeyPressed this s = Outcome.idle s ∧
    HandlePreviousKeyPressed this s = Outcome.idle s := by
  constructor
  · simp [HandleNextKeyPressed, hlatch, Outcome.idle]
  · simp [HandlePreviousKeyPressed, hlatch, Outcome.idle]

/-! ## Claims -/

/-- C3: with the confirmation latch set, `HandleNextKeyPressed` and
`HandlePreviousKeyPressed` make no call of the focus-transfer utility (nor any other call),
stop without a fault and leave the collection, the focus flags and the latch as they were,
for every collection (the empty one included), all focus flags and either setting of
`BoundOpposite`. -/
theorem latched_handlers_idle (this : ContainerPtr) (s : State)
    (hlatch : s.Box.HasConfirmed = true) :
    HandleNextKeyPressed this s = Outcome.idle s ∧
    HandlePreviousKeyPressed this s = Outcome.idle s :=
  latched_idle this s hlatch

theorem latched_handlers_idle_witness :
    (mkState [1, 2, 3] [1, 3] true true).Box.HasConfirmed = true ∧
    HandleNextKeyPressed 9 (mkState [1, 2, 3] [1, 3] true true)
      = Outcome.idle (mkState [1, 2, 3] [1, 3] true true) ∧
    HandlePreviousKeyPressed 9 (mkState [1, 2, 3] [1, 3] true true)
      = Outcome.idle (mkState [1, 2, 3] [1, 3] true true) :=
  ⟨rfl, latched_handlers_idle 9 (mkState [1, 2, 3] [1, 3] true true) rfl⟩

/-- C4: `HandleConfirmKeyPressed` does nothing (state unchanged, no call, no fault) when no
widget of the collection is focused; when some widget is focused it sets `HasConfirmed`,
changes nothing else, and makes exactly one call, `ConfirmState` on the widget that
`GetFocusedNavigationWidget` returns, which is the widget at the first focused position. -/
theorem HandleConfirmKeyPressed_spec (s : State) :
    ((∀ w ∈ s.Box.NavigableWidgets, (s.Widgets w).IsFocused = false) →
        HandleConfirmKeyPressed s = Outcome.idle s) ∧
    ((∃ w ∈ s.Box.NavigableWidgets, (s.Widgets w).IsFocused = true) →
        ∃ (i : Nat) (w : WidgetPtr), s.Box.NavigableWidgets[i]? = some w ∧
          IsFirstFocused s i ∧ GetFocusedNavigationWidget s = some w ∧
          HandleConfirmKeyPressed s =
            ⟨{ s with Box := { s.Box with HasConfirmed := true } },
              [Call.ConfirmState w], none⟩) := by
  constructor
  · intro hnone
    have h := (GetFocused_none_iff s).mpr hnone
    simp [HandleConfirmKeyPressed, h, Outcome.idle]
  · rintro ⟨x, hx, hfx⟩
    cases hg : GetFocusedNavigationWidget s with
    | none =>
      have := (GetFocused_none_iff s).mp hg x hx
      rw [hfx] at this
      exact Bool.noConfusion this
    | some w =>
      obtain ⟨i, hi, hfirst⟩ := (GetFocused_some_iff s w).mp hg
      refine ⟨i, w, hi, hfirst, rfl, ?_⟩
      have hg1 : GetFocusedNavigationWidget
          { s with Box := { s.Box with HasConfirmed := true } } = some w := hg
      simp [HandleConfirmKeyPressed, hg, hg1]

theorem HandleConfirmKeyPressed_spec_witness :
    HandleConfirmKeyPressed (mkState [1, 2, 3] [] false false)
      = Outcome.idle (mkState [1, 2, 3] [] false false) ∧
    (HandleConfirmKeyPressed (mkState [1, 2, 3] [2, 3] false false)).calls
      = [Call.ConfirmState 2] ∧
    (HandleConfirmKeyPressed (mkState [1, 2, 3] [2, 3] false false)).state.Box.HasConfirmed
      = true := by
  refine ⟨(HandleConfirmKeyPressed_spec (mkState [1, 2, 3] [] false false)).1 (by decide),
    ?_, ?_⟩
  · obtain ⟨i, w, _, _, hget, h⟩ :=
      (HandleConfirmKeyPressed_spec (mkState [1, 2, 3] [2, 3] false false)).2
        ⟨2, by decide, by decide⟩
    have h2 : GetFocusedNavigationWidget (mkState [1, 2, 3] [2, 3] false false) = some 2 := by
      decide
    rw [h2] at hget
    cases hget
    rw [h]
  · obtain ⟨i, w, _, _, _, h⟩ :=
      (HandleConfirmKeyPressed_spec (mkState [1, 2, 3] [2, 3] false false)).2
        ⟨2, by decide, by decide⟩
    rw [h]

/-- C5: when the content of the slot is a navigable widget `W`, `OnSlotAdded` leaves the
collection equal to the old one with `W` appended as last element, sets the owner
back-reference of `W` to this container and changes no other widget; when the content is
not a navigable widget (another widget, or null) the state is unchanged. -/
theorem OnSlotAdded_spec (this : ContainerPtr) (s : State) (Slot : UPanelSlot) :
    (∀ W, Slot.Content = some (UWidget.Navigable W) →
      (OnSlotAdded this s Slot).state.Box.NavigableWidgets = s.Box.NavigableWidgets ++ [W] ∧
      (OnSlotAdded this s Slot).state.Box.NavigableWidgets.getLast? = some W ∧
      ((OnSlotAdded this s Slot).state.Widgets W).OwnerContainer = some this ∧
      ((OnSlotAdded this s Slot).state.Widgets W).IsFocused = (s.Widgets W).IsFocused ∧
      (∀ p, p ≠ W → (OnSlotAdded this s Slot).state.Widgets p = s.Widgets p) ∧
      (OnSlotAdded this s Slot).fault = none) ∧
    ((∀ W, Slot.Content ≠ some (UWidget.Navigable W)) →
      (OnSlotAdded this s Slot).state = s ∧ (OnSlotAdded this s Slot).fault = none) := by
  constructor
  · intro W hW
    have hc : CastNavigableWidget Slot.Content = some W := by rw [hW]; rfl
    simp only [OnSlotAdded, hc]
    refine ⟨trivial, by simp, by simp, by simp, ?_, trivial⟩
    intro p hp
    simp [Function.update, hp]
  · intro hno
    have hc : CastNavigableWidget Slot.Content = none := by
      cases hS : Slot.Content with
      | none => rfl
      | some u =>
        cases u with
        | Navigable p => exact absurd hS (hno p)
        | Other p => rfl
    simp only [OnSlotAdded, hc]
    exact ⟨trivial, trivial⟩

theorem OnSlotAdded_spec_witness :
    (OnSlotAdded 9 (mkState [1, 2] [1] false false) ⟨some (UWidget.Navigable 5)⟩).state.Box.NavigableWidgets
      = [1, 2, 5] ∧
    ((OnSlotAdded 9 (mkState [1, 2] [1] false false) ⟨some (UWidget.Navigable 5)⟩).state.Widgets 5).OwnerContainer
      = some 9 ∧
    (OnSlotAdded 9 (mkState [1, 2] [1] false false) ⟨some (UWidget.Other 5)⟩).state.Box.NavigableWidgets
      = [1, 2] := by
  have h1 := (OnSlotAdded_spec 9 (mkState [1, 2] [1] false false)
    ⟨some (UWidget.Navigable 5)⟩).1 5 rfl
  have h2 := (OnSlotAdded_spec 9 (mkState [1, 2] [1] false false)
    ⟨some (UWidget.Other 5)⟩).2 (by intro W h; cases h)
  refine ⟨h1.1, h1.2.2.1, ?_⟩
  rw [h2.1]
  rfl

/-- C6: when the content of the slot is a navigable widget `W`, after `OnSlotRemoved` the
widget `W` is at no position of the collection, the collection is the old one with exactly
the occurrences of `W` left out (so the other widgets keep their relative order), the owner
back-reference of `W` is null, and no other widget is changed. -/
theorem OnSlotRemoved_spec (s : State) (Slot : UPanelSlot) (W : WidgetPtr)
    (hW : Slot.Content = some (UWidget.Navigable W)) :
    W ∉ (OnSlotRemoved s Slot).state.Box.NavigableWidgets ∧
    (OnSlotRemoved s Slot).state.Box.NavigableWidgets
      = s.Box.NavigableWidgets.filter (fun x => decide (x ≠ W)) ∧
    List.Sublist (OnSlotRemoved s Slot).state.Box.NavigableWidgets s.Box.NavigableWidgets ∧
    ((OnSlotRemoved s Slot).state.Widgets W).OwnerContainer = none ∧
    (∀ p, p ≠ W → (OnSlotRemoved s Slot).state.Widgets p = s.Widgets p) ∧
    (OnSlotRemoved s Slot).fault = none := by
  have hc : CastNavigableWidget Slot.Content = some W := by rw [hW]; rfl
  simp only [OnSlotRemoved, hc]
  refine ⟨not_mem_TArrayRemove _ _, TArrayRemove_eq_filter _ _, ?_, by simp, ?_, trivial⟩
  · rw [TArrayRemove_eq_filter]
    exact List.filter_sublist _
  · intro p hp
    simp [Function.update, hp]

theorem OnSlotRemoved_spec_witness :
    (1 : WidgetPtr) ∉ (OnSlotRemoved ⟨⟨[1, 2, 1, 3], false, false⟩, fun _ => ⟨false, some 9⟩⟩
        ⟨some (UWidget.Navigable 1)⟩).state.Box.NavigableWidgets ∧
    (OnSlotRemoved ⟨⟨[1, 2, 1, 3], false, false⟩, fun _ => ⟨false, some 9⟩⟩
        ⟨some (UWidget.Navigable 1)⟩).state.Box.NavigableWidgets = [2, 3] ∧
    ((OnSlotRemoved ⟨⟨[1, 2, 1, 3], false, false⟩, fun _ => ⟨false, some 9⟩⟩
        ⟨some (UWidget.Navigable 1)⟩).state.Widgets 1).OwnerContainer = none := by
  have h := OnSlotRemoved_spec ⟨⟨[1, 2, 1, 3], false, false⟩, fun _ => ⟨false, some 9⟩⟩
    ⟨some (UWidget.Navigable 1)⟩ 1 rfl
  refine ⟨h.1, ?_, h.2.2.2.1⟩
  rw [h.2.1]
  decide

/-- C8: `GetFocusedNavigationWidget` returns `w` exactly when `w` is the widget at the first
focused position of the collection (that position is focused and no earlier one is), and
returns null exactly when no widget of the collection is focused. -/
theorem GetFocusedNavigationWidget_spec (s : State) :
    (∀ w, GetFocusedNavigationWidget s = some w ↔
      ∃ i : Nat, s.Box.NavigableWidgets[i]? = some w ∧ IsFirstFocused s i) ∧
    (GetFocusedNavigationWidget s = none ↔
      ∀ w ∈ s.Box.NavigableWidgets, (s.Widgets w).IsFocused = false) :=
  ⟨GetFocused_some_iff s, GetFocused_none_iff s⟩

theorem GetFocusedNavigationWidget_spec_witness :
    GetFocusedNavigationWidget (mkState [4, 5, 6, 7] [6, 7] false false) = some 6 ∧
    GetFocusedNavigationWidget (mkState [4, 5, 6, 7] [] false false) = none := by
  constructor
  · exact ((GetFocusedNavigationWidget_spec (mkState [4, 5, 6, 7] [6, 7] false false)).1 6).mpr
      ⟨2, by decide, by decide, by decide⟩
  · exact (GetFocusedNavigationWidget_spec (mkState [4, 5, 6, 7] [] false false)).2.mpr
      (by decide)

/-- C9: for every Blueprint asset, `Compile` runs a compiler exactly when `CanCompile`
returns true, which is exactly when the asset passes the StateMachine or the NpcBehavior
type test; an asset passing the StateMachine test goes to the StateMachine compiler alone,
an asset passing only the NpcBehavior test goes to the NpcBehavior compiler alone, and for
any other asset (and for a null pointer) no compiler runs and `CanCompile` is false. -/
theorem Compile_dispatch (NewClass : Compiler → Bool) (b : UBlueprint) :
    ((Compile NewClass (some b)).compiled ≠ [] ↔ CanCompile (some b) = true) ∧
    (CanCompile (some b) = true ↔
      (b.IsStateMachineBlueprint = true ∨ b.IsNpcBehaviorBlueprint = true)) ∧
    (b.IsStateMachineBlueprint = true →
      (Compile NewClass (some b)).compiled = [Compiler.StateMachine]) ∧
    (b.IsStateMachineBlueprint = false → b.IsNpcBehaviorBlueprint = true →
      (Compile NewClass (some b)).compiled = [Compiler.NpcBehavior]) ∧
    (b.IsStateMachineBlueprint = false → b.IsNpcBehaviorBlueprint = false →
      (Compile NewClass (some b)).compiled = [] ∧ CanCompile (some b) = false) ∧
    ((Compile NewClass none).compiled = [] ∧ CanCompile none = false) := by
  obtain ⟨sm, npc⟩ := b
  cases sm <;> cases npc <;> simp [Compile, CanCompile]

theorem Compile_dispatch_witness :
    (Compile (fun _ => true) (some ⟨true, false⟩)).compiled = [Compiler.StateMachine] ∧
    (Compile (fun _ => true) (some ⟨false, true⟩)).compiled = [Compiler.NpcBehavior] ∧
    (Compile (fun _ => true) (some ⟨false, false⟩)).compiled = [] ∧
    CanCompile (some ⟨false, false⟩) = false :=
  ⟨(Compile_dispatch (fun _ => true) ⟨true, false⟩).2.2.1 rfl,
   (Compile_dispatch (fun _ => true) ⟨false, true⟩).2.2.2.1 rfl rfl,
   (Compile_dispatch (fun _ => true) ⟨false, false⟩).2.2.2.2.1 rfl rfl⟩

/-- C1: on a non-empty collection in which position `i` is the only focused one, with the
latch unset, `HandleNextKeyPressed` makes exactly one call, of the focus-transfer utility on
the element at `i + 1`, when `i` is not the last position; when `i` is the last position it
makes that one call on the element at position 0 if `BoundOpposite` is set and makes no call
if it is not.  The container state is left as it was and no fault occurs. -/
theorem HandleNextKeyPressed_single_focus (this : ContainerPtr) (s : State) (i : Nat)
    (_hne : s.Box.NavigableWidgets ≠ [])
    (hi : i < s.Box.NavigableWidgets.length)
    (hone : ∀ j, j < s.Box.NavigableWidgets.length → (FocusedAt s j = true ↔ j = i))
    (hlatch : s.Box.HasConfirmed = false) :
    (i + 1 < s.Box.NavigableWidgets.length →
      ∃ t, s.Box.NavigableWidgets[i + 1]? = some t ∧
        HandleNextKeyPressed this s = Outcome.focus this s t) ∧
    (i + 1 = s.Box.NavigableWidgets.length → s.Box.BoundOpposite = true →
      ∃ t, s.Box.NavigableWidgets[0]? = some t ∧
        HandleNextKeyPressed this s = Outcome.focus this s t) ∧
    (i + 1 = s.Box.NavigableWidgets.length → s.Box.BoundOpposite = false →
      HandleNextKeyPressed this s = Outcome.idle s) := by
  have hf : FocusedAt s i = true := (hone i hi).mpr rfl
  have hother : ∀ j, j < s.Box.NavigableWidgets.length → j ≠ i → FocusedAt s j = false := by
    intro j hj hji
    apply FocusedAt_eq_false_of_ne_true
    intro h
    exact hji ((hone j hj).mp h)
  have hlast : i + 1 = s.Box.NavigableWidgets.length →
      HandleNextKeyPressed this s = NextBoundOpposite this s := by
    intro hl
    apply HandleNext_exhausted this s hlatch
    intro j hj
    exact hother j (by omega) (by omega)
  refine ⟨?_, ?_, ?_⟩
  · intro hlt
    obtain ⟨t, ht⟩ := getElem_some_of_lt s.Box.NavigableWidgets (i + 1) hlt
    exact ⟨t, ht, HandleNext_found this s i t hlatch ht hf
      (fun j hj => hother j (by omega) (by omega))⟩
  · intro hl hb
    obtain ⟨t, ht⟩ := getElem_some_of_lt s.Box.NavigableWidgets 0 (by omega)
    exact ⟨t, ht, by rw [hlast hl, NextBoundOpposite_on this s t hb ht]⟩
  · intro hl hb
    rw [hlast hl, NextBoundOpposite_off this s hb]

theorem HandleNextKeyPressed_single_focus_witness :
    HandleNextKeyPressed 9 (mkState [1, 2, 3] [2] false false)
      = Outcome.focus 9 (mkState [1, 2, 3] [2] false false) 3 ∧
    HandleNextKeyPressed 9 (mkState [1, 2, 3] [3] false false)
      = Outcome.idle (mkState [1, 2, 3] [3] false false) ∧
    HandleNextKeyPressed 9 (mkState [1, 2, 3] [3] false true)
      = Outcome.focus 9 (mkState [1, 2, 3] [3] false true) 1 := by
  refine ⟨?_, ?_, ?_⟩
  · obtain ⟨t, ht, h⟩ := (HandleNextKeyPressed_single_focus 9
      (mkState [1, 2, 3] [2] false false) 1 (by decide) (by decide) (by decide) rfl).1
      (by decide)
    have h3 : (mkState [1, 2, 3] [2] false false).Box.NavigableWidgets[1 + 1]? = some 3 := rfl
    rw [h3] at ht
    cases ht
    exact h
  · exact (HandleNextKeyPressed_single_focus 9
      (mkState [1, 2, 3] [3] false false) 2 (by decide) (by decide) (by decide) rfl).2.2
      rfl rfl
  · obtain ⟨t, ht, h⟩ := (HandleNextKeyPressed_single_focus 9
      (mkState [1, 2, 3] [3] false true) 2 (by decide) (by decide) (by decide) rfl).2.1
      rfl rfl
    have h1 : (mkState [1, 2, 3] [3] false true).Box.NavigableWidgets[0]? = some 1 := rfl
    rw [h1] at ht
    cases ht
    exact h

/-- C2: on a non-empty collection in which position `i` is the only focused one, with the
latch unset, `HandlePreviousKeyPressed` makes exactly one call, of the focus-transfer
utility on the element at `i - 1`, when `i > 0`; when `i = 0` it makes that one call on the
last element if `BoundOpposite` is set and makes no call if it is not.  The container state
is left as it was and no fault occurs. -/
theorem HandlePreviousKeyPressed_single_focus (this : ContainerPtr) (s : State) (i : Nat)
    (_hne : s.Box.NavigableWidgets ≠ [])
    (hi : i < s.Box.NavigableWidgets.length)
    (hone : ∀ j, j < s.Box.NavigableWidgets.length → (FocusedAt s j = true ↔ j = i))
    (hlatch : s.Box.HasConfirmed = false) :
    (0 < i →
      ∃ t, s.Box.NavigableWidgets[i - 1]? = some t ∧
        HandlePreviousKeyPressed this s = Outcome.focus this s t) ∧
    (i = 0 → s.Box.BoundOpposite = true →
      ∃ t, s.Box.NavigableWidgets[s.Box.NavigableWidgets.length - 1]? = some t ∧
        HandlePreviousKeyPressed this s = Outcome.focus this s t) ∧
    (i = 0 → s.Box.BoundOpposite = false →
      HandlePreviousKeyPressed this s = Outcome.idle s) := by
  have hf : FocusedAt s i = true := (hone i hi).mpr rfl
  have hother : ∀ j, j ≠ i → FocusedAt s j = false := by
    intro j hji
    apply FocusedAt_eq_false_of_ne_true
    intro h
    exact hji ((hone j (FocusedAt_lt s j h)).mp h)
  have hfirst : i = 0 → HandlePreviousKeyPressed this s = PreviousBoundOpposite this s := by
    intro h0
    apply HandlePrevious_exhausted this s hlatch
    intro j hj
    exact hother j (by omega)
  refine ⟨?_, ?_, ?_⟩
  · intro hpos
    obtain ⟨t, ht⟩ := getElem_some_of_lt s.Box.NavigableWidgets (i - 1) (by omega)
    exact ⟨t, ht, HandlePrevious_found this s i t hlatch hi hpos ht hf
      (fun j hj _ => hother j (by omega))⟩
  · intro h0 hb
    obtain ⟨t, ht⟩ := getElem_some_of_lt s.Box.NavigableWidgets
      (s.Box.NavigableWidgets.length - 1) (by omega)
    exact ⟨t, ht, by rw [hfirst h0, PreviousBoundOpposite_on this s t hb ht]⟩
  · intro h0 hb
    rw [hfirst h0, PreviousBoundOpposite_off this s hb]

theorem HandlePreviousKeyPressed_single_focus_witness :
    HandlePreviousKeyPressed 9 (mkState [1, 2, 3] [2] false false)
      = Outcome.focus 9 (mkState [1, 2, 3] [2] false false) 1 ∧
    HandlePreviousKeyPressed 9 (mkState [1, 2, 3] [1] false false)
      = Outcome.idle (mkState [1, 2, 3] [1] false false) ∧
    HandlePreviousKeyPressed 9 (mkState [1, 2, 3] [1] false true)
      = Outcome.focus 9 (mkState [1, 2, 3] [1] false true) 3 := by
  refine ⟨?_, ?_, ?_⟩
  · obtain ⟨t, ht, h⟩ := (HandlePreviousKeyPressed_single_focus 9
      (mkState [1, 2, 3] [2] false false) 1 (by decide) (by decide) (by decide) rfl).1
      (by decide)
    have h1 : (mkState [1, 2, 3] [2] false false).Box.NavigableWidgets[1 - 1]? = some 1 := rfl
    rw [h1] at ht
    cases ht
    exact h
  · exact (HandlePreviousKeyPressed_single_focus 9
      (mkState [1, 2, 3] [1] false false) 0 (by decide) (by decide) (by decide) rfl).2.2
      rfl rfl
  · obtain ⟨t, ht, h⟩ := (HandlePreviousKeyPressed_single_focus 9
      (mkState [1, 2, 3] [1] false true) 0 (by decide) (by decide) (by decide) rfl).2.1
      rfl rfl
    have h3 : (mkState [1, 2, 3] [1] false true).Box.NavigableWidgets[
        (mkState [1, 2, 3] [1] false true).Box.NavigableWidgets.length - 1]? = some 3 := rfl
    rw [h3] at ht
    cases ht
    exact h

/-- C7: on a non-empty collection neither `HandleNextKeyPressed` nor
`HandlePreviousKeyPressed` ever subscripts the array out of range (nor faults otherwise),
whatever the focus flags, the latch and `BoundOpposite`; each of them subscripts out of
range exactly when the collection is empty, the latch is unset and `BoundOpposite` is set,
at index 0 for next and at index `Num() - 1 = -1` for previous, before any call; on an empty
collection with `BoundOpposite` unset both do nothing. -/
theorem handlers_index_safety (this : ContainerPtr) (s : State) :
    (s.Box.NavigableWidgets ≠ [] →
      (HandleNextKeyPressed this s).fault = none ∧
      (HandlePreviousKeyPressed this s).fault = none) ∧
    ((∃ k, (HandleNextKeyPressed this s).fault = some (Fault.IndexOutOfRange k)) ↔
      (s.Box.NavigableWidgets = [] ∧ s.Box.HasConfirmed = false ∧
        s.Box.BoundOpposite = true)) ∧
    ((∃ k, (HandlePreviousKeyPressed this s).fault = some (Fault.IndexOutOfRange k)) ↔
      (s.Box.NavigableWidgets = [] ∧ s.Box.HasConfirmed = false ∧
        s.Box.BoundOpposite = true)) ∧
    (s.Box.NavigableWidgets = [] → s.Box.HasConfirmed = false → s.Box.BoundOpposite = true →
      HandleNextKeyPressed this s = ⟨s, [], some (Fault.IndexOutOfRange 0)⟩ ∧
      HandlePreviousKeyPressed this s = ⟨s, [], some (Fault.IndexOutOfRange (-1))⟩) ∧
    (s.Box.NavigableWidgets = [] → s.Box.BoundOpposite = false →
      HandleNextKeyPressed this s = Outcome.idle s ∧
      HandlePreviousKeyPressed this s = Outcome.idle s) ∧
    ((HandleNextKeyPressed this s).fault = none ∨
      (HandleNextKeyPressed this s).fault = some (Fault.IndexOutOfRange 0)) ∧
    ((HandlePreviousKeyPressed this s).fault = none ∨
      (HandlePreviousKeyPressed this s).fault = some (Fault.IndexOutOfRange (-1))) := by
  have hn := HandleNext_fault this s
  have hp := HandlePrevious_fault this s
  refine ⟨?_, ?_, ?_, ?_, ?_, ?_, ?_⟩
  · intro hne
    rw [hn, hp]
    simp [hne]
  · rw [hn]
    by_cases hc : s.Box.NavigableWidgets = [] ∧ s.Box.HasConfirmed = false ∧
        s.Box.BoundOpposite = true
    · simp [hc]
    · rw [if_neg hc]
      simp [hc]
  · rw [hp]
    by_cases hc : s.Box.NavigableWidgets = [] ∧ s.Box.HasConfirmed = false ∧
        s.Box.BoundOpposite = true
    · simp [hc]
    · rw [if_neg hc]
      simp [hc]
  · intro he hl hb
    have h := handlers_empty this s he hl
    rw [h.1, h.2, NextBoundOpposite_empty this s hb he,
      PreviousBoundOpposite_empty this s hb he]
    exact ⟨rfl, rfl⟩
  · intro he hb
    cases hl : s.Box.HasConfirmed with
    | true => exact latched_idle this s hl
    | false =>
      have h := handlers_empty this s he hl
      rw [h.1, h.2, NextBoundOpposite_off this s hb, PreviousBoundOpposite_off this s hb]
      exact ⟨rfl, rfl⟩
  · rw [hn]
    split
    · exact Or.inr rfl
    · exact Or.inl rfl
  · rw [hp]
    split
    · exact Or.inr rfl
    · exact Or.inl rfl

theorem handlers_index_safety_witness :
    (HandleNextKeyPressed 9 (mkState [1, 2, 3] [1, 3] false true)).fault = none ∧
    (HandlePreviousKeyPressed 9 (mkState [1, 2, 3] [1, 3] false true)).fault = none ∧
    HandleNextKeyPressed 9 (mkState [] [] false true)
      = ⟨mkState [] [] false true, [], some (Fault.IndexOutOfRange 0)⟩ ∧
    HandlePreviousKeyPressed 9 (mkState [] [] false true)
      = ⟨mkState [] [] false true, [], some (Fault.IndexOutOfRange (-1))⟩ ∧
    HandleNextKeyPressed 9 (mkState [] [] false false)
      = Outcome.idle (mkState [] [] false false) ∧
    HandlePreviousKeyPressed 9 (mkState [] [] false false)
      = Outcome.idle (mkState [] [] false false) :=
  ⟨((handlers_index_safety 9 (mkState [1, 2, 3] [1, 3] false true)).1 (by decide)).1,
   ((handlers_index_safety 9 (mkState [1, 2, 3] [1, 3] false true)).1 (by decide)).2,
   ((handlers_index_safety 9 (mkState [] [] false true)).2.2.2.1 rfl rfl rfl).1,
   ((handlers_index_safety 9 (mkState [] [] false true)).2.2.2.1 rfl rfl rfl).2,
   ((handlers_index_safety 9 (mkState [] [] false false)).2.2.2.2.1 rfl rfl).1,
   ((handlers_index_safety 9 (mkState [] [] false false)).2.2.2.2.1 rfl rfl).2⟩

/-- C10: with any number of focused widgets and the latch unset, `HandleNextKeyPressed`
follows `GetFocusedNavigationWidget`: when the first focused position `i` has a successor,
the widget at `i` is the one `GetFocusedNavigationWidget` returns and the single call targets
the element at `i + 1`; when there is no focused position or the first one is the last
position, the statement after the loop (the `BoundOpposite` test) is reached.
`HandlePreviousKeyPressed` instead targets the element at `j - 1` for the smallest focused
position `j ≥ 1`, and its loop runs to the end, to the `BoundOpposite` test, exactly when no
position from 1 on is focused.  On `[A, B, C]` with `A` and `C` focused and `BoundOpposite`
set, `GetFocusedNavigationWidget` returns `A`, next targets `B`, and previous targets `B`
as well, not the last element `C`. -/
theorem next_previous_asymmetry :
    (∀ (this : ContainerPtr) (s : State), s.Box.HasConfirmed = false →
      (∀ (i : Nat) (w t : WidgetPtr), IsFirstFocused s i →
          s.Box.NavigableWidgets[i]? = some w → s.Box.NavigableWidgets[i + 1]? = some t →
          GetFocusedNavigationWidget s = some w ∧
          HandleNextKeyPressed this s = Outcome.focus this s t) ∧
      ((∀ i, IsFirstFocused s i → s.Box.NavigableWidgets.length ≤ i + 1) →
          HandleNextKeyPressed this s = NextBoundOpposite this s) ∧
      (∀ (j : Nat) (t : WidgetPtr), 1 ≤ j → FocusedAt s j = true →
          (∀ m, 1 ≤ m → m < j → FocusedAt s m = false) →
          s.Box.NavigableWidgets[j - 1]? = some t →
          HandlePreviousKeyPressed this s = Outcome.focus this s t) ∧
      (PreviousScan this s (s.Box.NavigableWidgets.length + 1) 0 = Scan.Done ↔
          ∀ m, 1 ≤ m → FocusedAt s m = false) ∧
      ((∀ m, 1 ≤ m → FocusedAt s m = false) →
          HandlePreviousKeyPressed this s = PreviousBoundOpposite this s)) ∧
    (GetFocusedNavigationWidget (mkState [1, 2, 3] [1, 3] false true) = some 1 ∧
      (HandleNextKeyPressed 9 (mkState [1, 2, 3] [1, 3] false true)).calls
        = [Call.FocusNavigableWidget 9 2] ∧
      (HandlePreviousKeyPressed 9 (mkState [1, 2, 3] [1, 3] false true)).calls
        = [Call.FocusNavigableWidget 9 2] ∧
      (PreviousBoundOpposite 9 (mkState [1, 2, 3] [1, 3] false true)).calls
        = [Call.FocusNavigableWidget 9 3]) := by
  refine ⟨?_, by decide, by decide, by decide, by decide⟩
  intro this s hlatch
  refine ⟨?_, ?_, ?_, PreviousScan_done_iff this s, HandlePrevious_exhausted this s hlatch⟩
  · intro i w t hfirst hw ht
    exact ⟨(GetFocused_some_iff s w).mpr ⟨i, hw, hfirst⟩,
      HandleNext_found this s i t hlatch ht hfirst.1 hfirst.2⟩
  · intro hlast
    apply HandleNext_exhausted this s hlatch
    intro j hj
    apply FocusedAt_eq_false_of_ne_true
    intro hf
    obtain ⟨i, hij, hfirst⟩ := exists_first_focused s j hf
    have := hlast i hfirst
    omega
  · intro j t hj hf hmin ht
    exact HandlePrevious_found this s j t hlatch (FocusedAt_lt s j hf) hj ht hf
      (fun m hm hm1 => hmin m hm1 hm)

theorem next_previous_asymmetry_witness :
    HandleNextKeyPressed 9 (mkState [1, 2, 3, 4] [1, 3, 4] false true)
      = Outcome.focus 9 (mkState [1, 2, 3, 4] [1, 3, 4] false true) 2 ∧
    HandlePreviousKeyPressed 9 (mkState [1, 2, 3, 4] [1, 3, 4] false true)
      = Outcome.focus 9 (mkState [1, 2, 3, 4] [1, 3, 4] false true) 2 ∧
    HandlePreviousKeyPressed 9 (mkState [1, 2, 3, 4] [1] false true)
      = PreviousBoundOpposite 9 (mkState [1, 2, 3, 4] [1] false true) :=
  ⟨((next_previous_asymmetry.1 9 (mkState [1, 2, 3, 4] [1, 3, 4] false true) rfl).1
      0 1 2 ⟨by decide, by decide⟩ rfl rfl).2,
   (next_previous_asymmetry.1 9 (mkState [1, 2, 3, 4] [1, 3, 4] false true) rfl).2.2.1
      2 2 (by decide) (by decide) (by decide) rfl,
   (next_previous_asymmetry.1 9 (mkState [1, 2, 3, 4] [1] false true) rfl).2.2.2.2
      (by
        intro m hm
        apply FocusedAt_eq_false_of_ne_true
        intro hf
        have hlt := FocusedAt_lt _ m hf
        have h4 : m < 4 := hlt
        have hall : ∀ k, k < 4 → 1 ≤ k →
            FocusedAt (mkState [1, 2, 3, 4] [1] false true) k = false := by decide
        rw [hall m h4 hm] at hf
        exact Bool.noConfusion hf)⟩

end UTFramework
